import Mathlib

/-!
Shallow embedding of the MicroSeq adaptive BLAST search-and-report core:
the alignment table parser (`aligners/_parse.py`), the adaptive retry
decision of `pipeline.run_blast_stage`, the best-hit resolver
(`post_blast_analysis._choose_best_hit`), the threshold sweep predictor
(`utility/cutoff_sweeper.py`), the taxonomy join
(`utility/add_taxonomy.py`) and the pre-spawn validation of
`blast/run_blast.py`.

Numbers parsed from tabular text are modelled as `Option ℚ`: `none` is a
pandas `NaN` produced by a failed numeric coercion (`errors="coerce"`), and
every comparison against a `none` is false, exactly as every float
comparison against `NaN` is false.  Finite float values are modelled as
rationals.  A cell missing from a short row is modelled as the empty
string (which coerces to `none`).
-/

namespace MicroSeq

/-! ### Numeric coercion (`pd.to_numeric(..., errors="coerce")`)

A small concrete parser for decimal/scientific literals, standing in for
the pandas numeric coercion on the numeric columns: a non-numeric cell
becomes `none` (NaN). -/

/-- Accumulate a decimal digit string; any non-digit character fails. -/
def natDigitsGo : List Char → ℕ → Option ℕ
  | [], acc => some acc
  | c :: cs, acc =>
    if c.isDigit then natDigitsGo cs (acc * 10 + (c.toNat - 48)) else none

/-- Value of a non-empty all-digit string. -/
def natDigits (cs : List Char) : Option ℕ :=
  match cs with
  | [] => none
  | _ => natDigitsGo cs 0

/-- Strip an optional leading sign; `true` means negative. -/
def parseSign : List Char → Bool × List Char
  | '-' :: cs => (true, cs)
  | '+' :: cs => (false, cs)
  | cs => (false, cs)

/-- Unsigned fixed-point literal: `digits`, `digits.`, `.digits` or
`digits.digits`. -/
def parseFixedCore (cs : List Char) : Option ℚ :=
  let ip := cs.takeWhile (fun c => c ≠ '.')
  let rest := cs.dropWhile (fun c => c ≠ '.')
  match rest with
  | [] => (natDigits ip).map (fun n => (n : ℚ))
  | _ :: fp =>
    if fp.any (fun c => c = '.') then none
    else
      match ip, fp with
      | [], [] => none
      | [], _ => (natDigits fp).map (fun f => (f : ℚ) / (10 : ℚ) ^ fp.length)
      | _, [] => (natDigits ip).map (fun n => (n : ℚ))
      | _, _ =>
        (natDigits ip).bind fun n =>
          (natDigits fp).map fun f => (n : ℚ) + (f : ℚ) / (10 : ℚ) ^ fp.length

/-- Signed integer exponent part of a scientific literal. -/
def parseExpPart (cs : List Char) : Option ℤ :=
  let sc := parseSign cs
  (natDigits sc.2).map (fun n => if sc.1 then -(n : ℤ) else (n : ℤ))

/-- Numeric coercion of one cell: decimal or scientific notation, `none`
(NaN) on anything else. -/
def parseRat (s : String) : Option ℚ :=
  let t := s.data.map (fun c => if c = 'E' then 'e' else c)
  let sc := parseSign t
  let mant := sc.2.takeWhile (fun c => c ≠ 'e')
  let rest := sc.2.dropWhile (fun c => c ≠ 'e')
  let mag : Option ℚ :=
    match rest with
    | [] => parseFixedCore mant
    | _ :: es =>
      (parseFixedCore mant).bind fun m =>
        (parseExpPart es).map fun k => m * (10 : ℚ) ^ k
  mag.map (fun m => if sc.1 then -m else m)

/-- Comparison `v >= t` on a coerced value: false on NaN, like floats. -/
def geOpt (v : Option ℚ) (t : ℚ) : Bool :=
  match v with
  | none => false
  | some x => decide (t ≤ x)

/-- Comparison `v < t` on a coerced value: false on NaN, like floats. -/
def ltOpt (v : Option ℚ) (t : ℚ) : Bool :=
  match v with
  | none => false
  | some x => decide (x < t)

/-! ### Alignment Table Parser (`aligners/_parse.py`, `parse_blast_tab`) -/

/-- The fixed 9-column schema `COLS` of `_parse.py`. -/
def COLS : List String :=
  ["qseqid", "sseqid", "pident", "qlen", "qcovhsp", "length", "evalue",
   "bitscore", "stitle"]

/-- One typed row of aligner output, after column coercion. -/
structure ParsedHit where
  qseqid : String
  sseqid : String
  pident : Option ℚ
  qlen : Option ℚ
  qcovhsp : Option ℚ
  length : Option ℚ
  evalue : Option ℚ
  bitscore : Option ℚ
  stitle : String
deriving DecidableEq

/-- Cell `i` of a tokenized row (missing cells read as the empty string). -/
def cell (r : List String) (i : ℕ) : String := r.getD i ""

/-- `comment="#"`: the remainder of a line starting at `#` is not parsed. -/
def stripComment (s : String) : String :=
  String.mk (s.data.takeWhile (fun c => c ≠ '#'))

/-- Tokenized rows of the file: comments stripped, blank lines skipped,
remaining lines split on tabs (`sep="\t"`). -/
def tableRows (lines : List String) : List (List String) :=
  ((lines.map stripComment).filter (fun l => l ≠ "")).map
    (fun l => l.splitOn "\t")

/-- Typed record from one tokenized row, in the fixed `COLS` order, with
the six numeric columns coerced. -/
def mkHit (r : List String) : ParsedHit :=
  { qseqid := cell r 0
    sseqid := cell r 1
    pident := parseRat (cell r 2)
    qlen := parseRat (cell r 3)
    qcovhsp := parseRat (cell r 4)
    length := parseRat (cell r 5)
    evalue := parseRat (cell r 6)
    bitscore := parseRat (cell r 7)
    stitle := cell r 8 }

/-- `parse_blast_tab`: read the table with `names=COLS`, drop the first
row when its first cell is the literal `qseqid` (header detection), coerce
numeric columns.  `pd.read_csv` raises `EmptyDataError` when no rows
remain after comment/blank stripping, which the function does not catch. -/
def parse_blast_tab (lines : List String) : Except String (List ParsedHit) :=
  match tableRows lines with
  | [] => Except.error "No columns to parse from file"
  | r :: rest =>
    Except.ok ((if cell r 0 = "qseqid" then rest else r :: rest).map mkHit)

/-- Data rows surviving the header check, as `parse_blast_tab` sees them. -/
def dataRows (lines : List String) : List (List String) :=
  match tableRows lines with
  | [] => []
  | r :: rest => if cell r 0 = "qseqid" then rest else r :: rest

/-- A realistic single data line used to exercise the parser. -/
def sampleLine : String :=
  "S1\tACC1\t99.0\t300\t95.0\t290\t1e-10\t200\tLactobacillus sp."

/-- Headerless table whose first data row has `qseqid` as its first field. -/
def qseqidDataLine : String :=
  "qseqid\tACC9\t98.5\t300\t95.0\t290\t1e-9\t190\tEscherichia sp."

/-- A second, ordinary data line. -/
def secondLine : String :=
  "S2\tACC2\t97.0\t300\t91.0\t280\t1e-8\t180\tBacillus sp."

/-- C4 counterexample: on wholly empty input (no rows survive comment and
blank stripping), `parse_blast_tab` propagates the reader's
`EmptyDataError` instead of returning an empty sequence, so "empty input
maps to an empty sequence, never an error" fails at the empty file. -/
theorem parse_blast_tab_empty_input_is_error :
    parse_blast_tab [] = Except.error "No columns to parse from file" := rfl

/-- C4 (amended): an input consisting of just the header row parses to the
empty sequence of hits, and for every input that parses successfully the
output preserves insertion order: the i-th output hit is built from the
i-th surviving input row.  (A wholly empty input instead raises
`EmptyDataError`.) -/
theorem parse_blast_tab_empty_and_order :
    parse_blast_tab [String.intercalate "\t" COLS] = Except.ok [] ∧
    ∀ lines hits, parse_blast_tab lines = Except.ok hits →
      ∀ i : ℕ, hits.get? i = ((dataRows lines).get? i).map mkHit := by
  constructor
  · with_unfolding_all rfl
  · intro lines hits h i
    unfold parse_blast_tab at h
    unfold dataRows
    cases htr : tableRows lines with
    | nil => rw [htr] at h; exact absurd h (by simp)
    | cons r rest =>
      rw [htr] at h
      simp only [Except.ok.injEq] at h
      subst h
      simp [List.getElem?_map]

/-- C4 witness: the order-preservation part evaluated on a concrete
one-row table. -/
theorem parse_blast_tab_empty_and_order_witness :
    [mkHit (sampleLine.splitOn "\t")].get? 0 =
      ((dataRows [sampleLine]).get? 0).map mkHit :=
  parse_blast_tab_empty_and_order.2 [sampleLine]
    [mkHit (sampleLine.splitOn "\t")] (by with_unfolding_all rfl) 0

/-- C10: header detection looks only at the first cell of the first row;
whenever that cell is the literal string `qseqid` the whole row is
removed, including a genuine data row of a headerless table whose
`query_id` happens to be `qseqid` (second conjunct: concrete two-row
headerless table losing its first data row). -/
theorem parse_blast_tab_header_first_cell :
    (∀ lines r rest, tableRows lines = r :: rest → cell r 0 = "qseqid" →
        parse_blast_tab lines = Except.ok (rest.map mkHit)) ∧
    parse_blast_tab [qseqidDataLine, secondLine] =
      Except.ok [mkHit (secondLine.splitOn "\t")] := by
  constructor
  · intro lines r rest htr hq
    unfold parse_blast_tab
    rw [htr]
    simp [hq]
  · with_unfolding_all rfl

/-- C10 witness: the universal header-stripping part applied to the
concrete headerless table. -/
theorem parse_blast_tab_header_first_cell_witness :
    parse_blast_tab [qseqidDataLine, secondLine] =
      Except.ok ([secondLine.splitOn "\t"].map mkHit) :=
  parse_blast_tab_header_first_cell.1 [qseqidDataLine, secondLine]
    (qseqidDataLine.splitOn "\t") [secondLine.splitOn "\t"]
    (by with_unfolding_all rfl) (by with_unfolding_all rfl)

/-! ### Generic stable lexicographic comparator

`pandas.sort_values` with several keys is a stable sort under the
lexicographic comparison of the keys; a descending key is the ascending
order of its negation.  `byKeyLex f rest` compares by the key `f` first
and falls through to `rest` on ties. -/

/-- Lexicographic comparison: key `f` first (ascending), then `rest`. -/
def byKeyLex {α κ : Type} [LinearOrder κ] (f : α → κ) (rest : α → α → Bool)
    (a b : α) : Bool :=
  if f a = f b then rest a b else decide (f a < f b)

/-- The everywhere-true tail comparator (full tie). -/
def tieRel {α : Type} : α → α → Bool := fun _ _ => true

theorem byKeyLex_trans {α κ : Type} [LinearOrder κ] (f : α → κ)
    (rest : α → α → Bool)
    (hrest : ∀ a b c, rest a b = true → rest b c = true → rest a c = true) :
    ∀ a b c, byKeyLex f rest a b = true → byKeyLex f rest b c = true →
      byKeyLex f rest a c = true := by
  intro a b c h1 h2
  unfold byKeyLex at h1 h2 ⊢
  by_cases e1 : f a = f b
  · by_cases e2 : f b = f c
    · rw [if_pos e1] at h1
      rw [if_pos e2] at h2
      rw [if_pos (e1.trans e2)]
      exact hrest a b c h1 h2
    · rw [if_neg e2] at h2
      have hbc : f b < f c := of_decide_eq_true h2
      have hac : f a < f c := e1 ▸ hbc
      rw [if_neg (ne_of_lt hac)]
      exact decide_eq_true hac
  · rw [if_neg e1] at h1
    have hab : f a < f b := of_decide_eq_true h1
    by_cases e2 : f b = f c
    · have hac : f a < f c := e2 ▸ hab
      rw [if_neg (ne_of_lt hac)]
      exact decide_eq_true hac
    · rw [if_neg e2] at h2
      have hbc : f b < f c := of_decide_eq_true h2
      have hac : f a < f c := hab.trans hbc
      rw [if_neg (ne_of_lt hac)]
      exact decide_eq_true hac

theorem byKeyLex_total {α κ : Type} [LinearOrder κ] (f : α → κ)
    (rest : α → α → Bool)
    (hrest : ∀ a b, rest a b = true ∨ rest b a = true) :
    ∀ a b, byKeyLex f rest a b = true ∨ byKeyLex f rest b a = true := by
  intro a b
  unfold byKeyLex
  by_cases e : f a = f b
  · rw [if_pos e, if_pos e.symm]
    exact hrest a b
  · rw [if_neg e, if_neg (Ne.symm e)]
    rcases lt_or_gt_of_ne e with h | h
    · exact Or.inl (decide_eq_true h)
    · exact Or.inr (decide_eq_true h)

/-! ### Best-Hit Resolver (`post_blast_analysis._choose_best_hit`) -/

/-- One row of the BLAST + taxonomy table as `_choose_best_hit` sees it:
the group's `sample_id`, the subject accession, the coerced per-cent
identity (NaN possible), the sort keys `evalue` and `bitscore`, and the
optional lineage string (`NaN`/missing modelled as `none`). -/
structure HitRow where
  sample_id : String
  sseqid : String
  pident : Option ℚ
  evalue : ℚ
  bitscore : ℚ
  taxonomy : Option String
deriving DecidableEq

/-- `seg.split("__", 1)[-1]`: the part of a rank segment after the first
`__`, or the whole segment when no `__` occurs. -/
def rankSegValue (seg : String) : String :=
  match seg.splitOn "__" with
  | [] => ""
  | [x] => x
  | _ :: rest => String.intercalate "__" rest

/-- `_tax_depth`: number of non-empty rank segments of a lineage string;
`0` for a missing (NaN) lineage. -/
def tax_depth : Option String → ℕ
  | none => 0
  | some s =>
    ((s.splitOn ";").map rankSegValue).countP (fun p => decide (p.trim ≠ ""))

/-- The comparator realised by
`sort_values(["sample_id", "evalue", "tax_depth", "bitscore"],
ascending=[True, True, False, False])`. -/
def hitLeB (a b : HitRow) : Bool :=
  byKeyLex (fun r : HitRow => r.sample_id)
    (byKeyLex (fun r : HitRow => r.evalue)
      (byKeyLex (fun r : HitRow => -(tax_depth r.taxonomy : ℤ))
        (byKeyLex (fun r : HitRow => -r.bitscore) tieRel))) a b

/-- The sort relation of the resolver, as a decidable proposition. -/
def hitLe (a b : HitRow) : Prop := hitLeB a b = true

instance : DecidableRel hitLe := fun a b => instDecidableEqBool (hitLeB a b) true

instance : IsTrans HitRow hitLe :=
  ⟨byKeyLex_trans _ _ (byKeyLex_trans _ _ (byKeyLex_trans _ _
    (byKeyLex_trans _ _ (fun _ _ _ _ _ => rfl))))⟩

instance : IsTotal HitRow hitLe :=
  ⟨byKeyLex_total _ _ (byKeyLex_total _ _ (byKeyLex_total _ _
    (byKeyLex_total _ _ (fun _ _ => Or.inl rfl))))⟩

/-- `_choose_best_hit` on one `query_id`/`sample_id` group: keep the rows
with `pident >= identity_th` (a NaN identity never passes), raise
`ValueError("No BLAST hits survive identity threshold")` when nothing is
left, otherwise stable-sort by the tie-break chain and collapse with
`groupby("sample_id").first()`.  Pandas `first` reads the first
**non-null** value per column in the sorted group.  Of the modelled
columns only `taxonomy` and `pident` are nullable, and every kept row
has a non-null `pident` (a NaN never passes the filter), so the
selection is the first sorted row with its `taxonomy` replaced by the
first non-null lineage in sort order — a chimera when the top row's
lineage is missing but a later row's is present. -/
def choose_best_hit (identity_th : ℚ) (df : List HitRow) :
    Except String HitRow :=
  let kept := df.filter (fun r => geOpt r.pident identity_th)
  match List.insertionSort hitLe kept with
  | [] => Except.error "No BLAST hits survive identity threshold"
  | r :: rs =>
    Except.ok { r with
      taxonomy := List.findSome? (fun x => x.taxonomy) (r :: rs) }

/-- A row whose identity is far below the report threshold. -/
def lowIdentityRow : HitRow :=
  { sample_id := "S1", sseqid := "ACC1", pident := some 50, evalue := 0,
    bitscore := 100, taxonomy := none }

/-- A row passing a 97 % identity threshold. -/
def passingRow : HitRow :=
  { sample_id := "S1", sseqid := "ACC2", pident := some 99, evalue := 0,
    bitscore := 200, taxonomy := none }

/-- C1 counterexample: a non-empty group with one row below the identity
floor makes `_choose_best_hit` raise the no-hits `ValueError` — there is
no fallback to the unfiltered group, so the error is not restricted to
truly empty groups. -/
theorem choose_best_hit_no_fallback :
    choose_best_hit 97 [lowIdentityRow] =
      Except.error "No BLAST hits survive identity threshold" ∧
    ([lowIdentityRow] : List HitRow) ≠ [] := by
  constructor
  · with_unfolding_all rfl
  · simp

/-- C1 (amended): `_choose_best_hit` fails with the no-hits error exactly
when zero rows pass the `pident >= identity_th` filter (even on a
non-empty group); it never falls back to the unfiltered group.  When at
least one row passes, it returns a selection whose alignment columns
(`sample_id`, `sseqid`, `pident`, `evalue`, `bitscore`) come from a
passing input row (the lineage column alone may be filled in from
another sorted row, per the per-column semantics of
`groupby(...).first()`). -/
theorem choose_best_hit_error_iff :
    ∀ (th : ℚ) (df : List HitRow),
    (choose_best_hit th df =
        Except.error "No BLAST hits survive identity threshold" ↔
      df.filter (fun r => geOpt r.pident th) = []) ∧
    (df.filter (fun r => geOpt r.pident th) ≠ [] →
      ∃ r, choose_best_hit th df = Except.ok r ∧
        ∃ r0, r0 ∈ df ∧ geOpt r0.pident th = true ∧
          r.sample_id = r0.sample_id ∧ r.sseqid = r0.sseqid ∧
          r.pident = r0.pident ∧ r.evalue = r0.evalue ∧
          r.bitscore = r0.bitscore) := by
  intro th df
  have hch : choose_best_hit th df =
      (match List.insertionSort hitLe
          (df.filter (fun r => geOpt r.pident th)) with
        | [] => Except.error "No BLAST hits survive identity threshold"
        | r :: rs => Except.ok { r with
            taxonomy := List.findSome? (fun x => x.taxonomy) (r :: rs) }) :=
    rfl
  have hperm := List.perm_insertionSort hitLe
    (df.filter (fun r => geOpt r.pident th))
  rw [hch]
  cases hs : List.insertionSort hitLe
      (df.filter (fun r => geOpt r.pident th)) with
  | nil =>
    rw [hs] at hperm
    have hkept : df.filter (fun r => geOpt r.pident th) = [] :=
      hperm.symm.eq_nil
    exact ⟨by simp [hkept], fun hne => absurd hkept hne⟩
  | cons r t =>
    rw [hs] at hperm
    have hrk : r ∈ df.filter (fun r => geOpt r.pident th) :=
      hperm.subset (List.mem_cons_self r t)
    constructor
    · constructor
      · intro h; exact absurd h (by simp)
      · intro h; rw [h] at hrk; exact absurd hrk (List.not_mem_nil r)
    · intro _
      exact ⟨{ r with
          taxonomy := List.findSome? (fun x => x.taxonomy) (r :: t) },
        rfl, r, (List.mem_filter.mp hrk).1, (List.mem_filter.mp hrk).2,
        rfl, rfl, rfl, rfl, rfl⟩

/-- C1 witness: on a concrete one-row group passing the filter, the
amended theorem yields a selection built from that passing row. -/
theorem choose_best_hit_error_iff_witness :
    ∃ r, choose_best_hit 97 [passingRow] = Except.ok r ∧
      ∃ r0, r0 ∈ [passingRow] ∧ geOpt r0.pident 97 = true ∧
        r.sample_id = r0.sample_id ∧ r.sseqid = r0.sseqid ∧
        r.pident = r0.pident ∧ r.evalue = r0.evalue ∧
        r.bitscore = r0.bitscore :=
  (choose_best_hit_error_iff 97 [passingRow]).2 (by with_unfolding_all decide)

/-- Two rows tied on every sort key (`evalue`, taxonomy depth,
`bitscore`) but naming different reference accessions. -/
def tiedRowA : HitRow :=
  { sample_id := "S1", sseqid := "ACC1", pident := some 99, evalue := 0,
    bitscore := 200, taxonomy := none }

/-- The tied partner of `tiedRowA`, differing only in `sseqid`. -/
def tiedRowB : HitRow :=
  { sample_id := "S1", sseqid := "ACC2", pident := some 99, evalue := 0,
    bitscore := 200, taxonomy := none }

/-- C3 counterexample: on a group with two rows tied on all three sort
keys, the selected row follows the input order, so permuting the rows
changes the selection: the resolver is not order-independent in
general. -/
theorem choose_best_hit_order_dependent :
    List.Perm [tiedRowA, tiedRowB] [tiedRowB, tiedRowA] ∧
    choose_best_hit 97 [tiedRowA, tiedRowB] = Except.ok tiedRowA ∧
    choose_best_hit 97 [tiedRowB, tiedRowA] = Except.ok tiedRowB ∧
    tiedRowA ≠ tiedRowB := by
  refine ⟨by with_unfolding_all decide, ?_, ?_, by with_unfolding_all decide⟩
  · with_unfolding_all rfl
  · with_unfolding_all rfl

/-- C3 (amended): the selection is invariant under permutations of the
group whenever no two distinct rows are tied on the whole sort key chain
(key-injectivity); the counterexample's full tie is exactly what the
claim must exclude. -/
theorem choose_best_hit_perm_invariant :
    ∀ (th : ℚ) (df df' : List HitRow), df.Perm df' →
    (∀ r ∈ df, ∀ s ∈ df, hitLeB r s = true → hitLeB s r = true → r = s) →
    choose_best_hit th df = choose_best_hit th df' := by
  intro th df df' hperm hinj
  have hch : ∀ (l : List HitRow), choose_best_hit th l =
      (match List.insertionSort hitLe
          (l.filter (fun r => geOpt r.pident th)) with
        | [] => Except.error "No BLAST hits survive identity threshold"
        | r :: rs => Except.ok { r with
            taxonomy := List.findSome? (fun x => x.taxonomy) (r :: rs) }) :=
    fun _ => rfl
  have heq : List.insertionSort hitLe
      (df.filter (fun r => geOpt r.pident th)) =
      List.insertionSort hitLe
      (df'.filter (fun r => geOpt r.pident th)) := by
    apply List.Perm.eq_of_sorted
    · intro a b ha hb hab hba
      have haf : a ∈ df := List.mem_of_mem_filter
        ((List.perm_insertionSort hitLe _).subset ha)
      have hbf : b ∈ df := hperm.symm.subset (List.mem_of_mem_filter
        ((List.perm_insertionSort hitLe _).subset hb))
      exact hinj a haf b hbf hab hba
    · exact List.sorted_insertionSort hitLe _
    · exact List.sorted_insertionSort hitLe _
    · exact (List.perm_insertionSort hitLe _).trans
        ((hperm.filter _).trans (List.perm_insertionSort hitLe _).symm)
  rw [hch df, hch df', heq]

/-- Rows with distinct `evalue` keys, for the permutation-invariance
witness. -/
def keyedRowA : HitRow :=
  { sample_id := "S1", sseqid := "ACC1", pident := some 99, evalue := 0,
    bitscore := 200, taxonomy := none }

/-- Partner of `keyedRowA` with a strictly larger `evalue`. -/
def keyedRowB : HitRow :=
  { sample_id := "S1", sseqid := "ACC2", pident := some 99, evalue := 1,
    bitscore := 180, taxonomy := none }

/-- C3 witness: on a concrete key-injective group, both orders give one
selection. -/
theorem choose_best_hit_perm_invariant_witness :
    choose_best_hit 97 [keyedRowA, keyedRowB] =
      choose_best_hit 97 [keyedRowB, keyedRowA] :=
  choose_best_hit_perm_invariant 97 [keyedRowA, keyedRowB]
    [keyedRowB, keyedRowA] (by with_unfolding_all decide)
    (by with_unfolding_all decide)

/-! ### Adaptive Retry Controller (`pipeline.run_blast_stage`)

After the first (megablast) pass, `run_blast_stage` reads the first data
row's `pident`/`qcovhsp` from the output table
(`usecols=["pident", "qcovhsp"], nrows=1, dtype=float`) and re-runs with
the sensitive `blastn` task when the table is empty or either value is
below 90. -/

/-- The two float columns the retry check (and the sweeper) read. -/
structure IdCovRow where
  pident : Option ℚ
  qcovhsp : Option ℚ
deriving DecidableEq

/-- `needs_retry`: an empty table behaves as `best_id = best_qcov = 0.0`;
otherwise the first row's values are compared against the 90/90 gate
(comparisons with NaN are false). -/
def needs_retry (hits : List IdCovRow) : Bool :=
  match hits with
  | [] => ltOpt (some 0) 90 || ltOpt (some 0) 90
  | h :: _ => ltOpt h.pident 90 || ltOpt h.qcovhsp 90

/-- The sensitive-mode fallback decision of `run_blast_stage`: only a
`megablast` first pass is ever retried; a table that could not be parsed
(`none`) counts as "needs retry" (fail open). -/
def run_blast_stage_retry (blast_task : String)
    (parsed : Option (List IdCovRow)) : Bool :=
  if blast_task = "megablast" then
    match parsed with
    | none => true
    | some hits => needs_retry hits
  else false

/-- C2: the second SENSITIVE pass fires iff the parsed table is empty or
the first hit's `pident` is below 90 or its `qcovhsp` is below 90; when
both values of the first hit are at least 90 it never fires. -/
theorem run_blast_stage_retry_iff :
    ∀ hits : List IdCovRow,
    (run_blast_stage_retry "megablast" (some hits) = true ↔
      hits = [] ∨ ∃ h t, hits = h :: t ∧
        ((∃ x, h.pident = some x ∧ x < 90) ∨
         (∃ y, h.qcovhsp = some y ∧ y < 90))) ∧
    (∀ h t, hits = h :: t →
      (∃ x, h.pident = some x ∧ 90 ≤ x) →
      (∃ y, h.qcovhsp = some y ∧ 90 ≤ y) →
      run_blast_stage_retry "megablast" (some hits) = false) := by
  intro hits
  constructor
  · cases hits with
    | nil => simp [run_blast_stage_retry, needs_retry, ltOpt]
    | cons h t =>
      simp only [run_blast_stage_retry, needs_retry, if_pos rfl,
        Bool.or_eq_true]
      cases hp : h.pident with
      | none =>
        cases hq : h.qcovhsp with
        | none => simp [ltOpt, hp, hq]
        | some y => simp [ltOpt, hp, hq]
      | some x =>
        cases hq : h.qcovhsp with
        | none => simp [ltOpt, hp, hq]
        | some y => simp [ltOpt, hp, hq]
  · intro h t heq hx hy
    subst heq
    obtain ⟨x, hpx, hx90⟩ := hx
    obtain ⟨y, hqy, hy90⟩ := hy
    simp [run_blast_stage_retry, needs_retry, ltOpt, hpx, hqy,
      not_lt.mpr hx90, not_lt.mpr hy90]

/-- C2 witness: a first hit at 95 % identity and 92 % coverage is never
retried, and the concrete scenario of an 85 %/92 % first hit is. -/
theorem run_blast_stage_retry_iff_witness :
    run_blast_stage_retry "megablast"
      (some [({ pident := some 95, qcovhsp := some 92 } : IdCovRow)]) =
      false :=
  (run_blast_stage_retry_iff
      [({ pident := some 95, qcovhsp := some 92 } : IdCovRow)]).2
    _ [] rfl ⟨95, rfl, by norm_num⟩ ⟨92, rfl, by norm_num⟩

/-! ### Threshold Sweep Predictor (`utility/cutoff_sweeper.py`, `suggest`)

Source defaults: `id_min=80, id_max=100, cov_min=0, cov_max=100, step=1,
top=10`. -/

/-- Number of rows passing both floors:
`((best[:, 0] >= ident) & (best[:, 1] >= qcov)).sum()`. -/
def passCount (rows : List IdCovRow) (ident qcov : ℕ) : ℕ :=
  rows.countP
    (fun r => geOpt r.pident (ident : ℚ) && geOpt r.qcovhsp (qcov : ℚ))

/-- `range(lo, hi + 1, step)` for a positive step. -/
def gridPoints (lo hi step : ℕ) : List ℕ :=
  ((List.range (hi + 1 - lo)).filter (fun d => d % step = 0)).map
    (fun d => lo + d)

/-- The unsorted `(identity, qcov, pass_count)` triples of the grid scan,
in `itertools.product` order. -/
def sweepResults (rows : List IdCovRow)
    (idMin idMax covMin covMax step : ℕ) : List (ℕ × ℕ × ℕ) :=
  (gridPoints idMin idMax step).flatMap (fun i =>
    (gridPoints covMin covMax step).map (fun c => (i, c, passCount rows i c)))

/-- The sort key `(abs(count - target), -identity, -qcov)` of `suggest`. -/
def tripleLeB (target : ℤ) (a b : ℕ × ℕ × ℕ) : Bool :=
  byKeyLex (fun t : ℕ × ℕ × ℕ => ((t.2.2 : ℤ) - target).natAbs)
    (byKeyLex (fun t : ℕ × ℕ × ℕ => -(t.1 : ℤ))
      (byKeyLex (fun t : ℕ × ℕ × ℕ => -(t.2.1 : ℤ)) tieRel)) a b

/-- The `suggest` ordering as a decidable relation. -/
def tripleLe (target : ℤ) (a b : ℕ × ℕ × ℕ) : Prop := tripleLeB target a b = true

instance (target : ℤ) : DecidableRel (tripleLe target) :=
  fun a b => instDecidableEqBool (tripleLeB target a b) true

instance (target : ℤ) : IsTrans (ℕ × ℕ × ℕ) (tripleLe target) :=
  ⟨byKeyLex_trans _ _ (byKeyLex_trans _ _ (byKeyLex_trans _ _
    (fun _ _ _ _ _ => rfl)))⟩

instance (target : ℤ) : IsTotal (ℕ × ℕ × ℕ) (tripleLe target) :=
  ⟨byKeyLex_total _ _ (byKeyLex_total _ _ (byKeyLex_total _ _
    (fun _ _ => Or.inl rfl)))⟩

/-- `suggest`: scan the grid, sort stably by
`(abs(count - target), -identity, -qcov)`, return the first `top`
triples. -/
def suggest (rows : List IdCovRow) (target : ℤ)
    (idMin idMax covMin covMax step top : ℕ) : List (ℕ × ℕ × ℕ) :=
  (List.insertionSort (tripleLe target)
    (sweepResults rows idMin idMax covMin covMax step)).take top

/-- C6: the predicted pass count is monotone non-increasing in both
floors: raising `identity_floor` or `coverage_floor` never increases it. -/
theorem passCount_antitone :
    ∀ (rows : List IdCovRow) (i1 c1 i2 c2 : ℕ), i1 ≤ i2 → c1 ≤ c2 →
      passCount rows i2 c2 ≤ passCount rows i1 c1 := by
  intro rows i1 c1 i2 c2 hi hc
  unfold passCount
  apply List.countP_mono_left
  intro r _ hr
  rw [Bool.and_eq_true] at hr ⊢
  obtain ⟨h1, h2⟩ := hr
  constructor
  · unfold geOpt at h1 ⊢
    cases hp : r.pident with
    | none => rw [hp] at h1; cases h1
    | some x =>
      rw [hp] at h1
      have hx : (i2 : ℚ) ≤ x := of_decide_eq_true h1
      exact decide_eq_true (le_trans (by exact_mod_cast hi) hx)
  · unfold geOpt at h2 ⊢
    cases hq : r.qcovhsp with
    | none => rw [hq] at h2; cases h2
    | some y =>
      rw [hq] at h2
      have hy : (c2 : ℚ) ≤ y := of_decide_eq_true h2
      exact decide_eq_true (le_trans (by exact_mod_cast hc) hy)

/-- C6 witness: the monotonicity evaluated on a concrete one-row table. -/
theorem passCount_antitone_witness :
    passCount [({ pident := some 99, qcovhsp := some 99 } : IdCovRow)]
        100 100 ≤
      passCount [({ pident := some 99, qcovhsp := some 99 } : IdCovRow)]
        97 80 :=
  passCount_antitone _ 97 80 100 100 (by decide) (by decide)

/-- C8: `suggest` returns triples ordered by
`(abs(count - target), identity descending, qcov descending)`, and every
returned triple carries the pass count actually observed at its grid
point. -/
theorem suggest_spec :
    ∀ (rows : List IdCovRow) (target : ℤ)
      (idMin idMax covMin covMax step top : ℕ), 0 < step →
    List.Sorted (tripleLe target)
      (suggest rows target idMin idMax covMin covMax step top) ∧
    ∀ t ∈ suggest rows target idMin idMax covMin covMax step top,
      t.1 ∈ gridPoints idMin idMax step ∧
      t.2.1 ∈ gridPoints covMin covMax step ∧
      t.2.2 = passCount rows t.1 t.2.1 := by
  intro rows target idMin idMax covMin covMax step top _
  constructor
  · exact List.Pairwise.sublist (List.take_sublist _ _)
      (List.sorted_insertionSort (tripleLe target) _)
  · intro t ht
    have h1 : t ∈ sweepResults rows idMin idMax covMin covMax step :=
      (List.perm_insertionSort (tripleLe target) _).subset
        (List.mem_of_mem_take ht)
    unfold sweepResults at h1
    rcases List.mem_flatMap.mp h1 with ⟨i, hi, hmap⟩
    rcases List.mem_map.mp hmap with ⟨c, hc, rfl⟩
    exact ⟨hi, hc, rfl⟩

/-- C8 witness: on a concrete one-row table with a 99/99 best hit and
target 1, the grid point (99, 99) is returned with its observed count. -/
theorem suggest_spec_witness :
    ((99, 99, 1) : ℕ × ℕ × ℕ).1 ∈ gridPoints 99 100 1 ∧
    ((99, 99, 1) : ℕ × ℕ × ℕ).2.1 ∈ gridPoints 99 100 1 ∧
    ((99, 99, 1) : ℕ × ℕ × ℕ).2.2 =
      passCount [({ pident := some 99, qcovhsp := some 99 } : IdCovRow)]
        99 99 :=
  (suggest_spec [({ pident := some 99, qcovhsp := some 99 } : IdCovRow)]
      1 99 100 99 100 1 10 (by decide)).2 (99, 99, 1)
    (by with_unfolding_all decide)

/-! ### Taxonomy Join (`utility/add_taxonomy.py`) -/

/-- One hit row as the join reads it (`qseqid` already renamed to
`sample_id`). -/
structure JoinHit where
  sample_id : String
  sseqid : String
deriving DecidableEq

/-- `_strip_accession` scanner: first occurrence of
`GC[AF][-_]digits`, returned as `GC?_digits`. -/
def accScan : List Char → Option String
  | [] => none
  | ch :: rest =>
    match ch, rest with
    | 'G', 'C' :: c :: sep :: ds =>
      if (c = 'A' || c = 'F') && (sep = '-' || sep = '_') &&
          decide (ds.takeWhile Char.isDigit ≠ []) then
        some (String.mk ('G' :: 'C' :: c :: '_' :: ds.takeWhile Char.isDigit))
      else accScan rest
    | _, _ => accScan rest

/-- `_strip_accession`: extract a plain genome accession
(`GCF_000771715`) from an `RS-GCF-...` style subject id; `None` when the
pattern does not occur.  Defined in `add_taxonomy.py` but never called by
`run_taxonomy_join`. -/
def strip_accession (s : String) : Option String := accScan s.data

/-- Trailing `\.\d+\.\d+$` (the SILVA version suffix) removed, if present. -/
def stripSilvaSuffix (s : String) : String :=
  let rev := s.data.reverse
  let d1 := rev.takeWhile Char.isDigit
  let r1 := rev.dropWhile Char.isDigit
  if d1 = [] then s else
  match r1 with
  | '.' :: r2 =>
    let d2 := r2.takeWhile Char.isDigit
    let r3 := r2.dropWhile Char.isDigit
    if d2 = [] then s else
    match r3 with
    | '.' :: r4 => String.mk r4.reverse
    | _ => s
  | _ => s

/-- The `sseqid` canonicalization chain of `run_taxonomy_join`:
`rstrip("|")`, last `|`-field, first space-field, drop a trailing
`.N.N` SILVA suffix. -/
def canonSseqid (s : String) : String :=
  let s1 := String.mk ((s.data.reverse.dropWhile (fun c => c = '|')).reverse)
  let s2 := (s1.splitOn "|").getLastD ""
  let s3 := ((s2.splitOn " ").headD "")
  stripSilvaSuffix s3

/-- Rows contributed by one (already canonicalized) hit in the left
merge: every matching taxonomy row, or a single row with a null lineage
when nothing matches. -/
def joinOne (tax : List (String × String)) (h : JoinHit) :
    List (JoinHit × Option String) :=
  match tax.filter (fun t => t.1 = h.sseqid) with
  | [] => [(h, (none : Option String))]
  | ms => ms.map (fun t => (h, some t.2))

/-- `run_taxonomy_join`: canonicalize each hit's `sseqid`, left-merge
against the taxonomy table (`how="left"` on `sseqid`; a key matching
several taxonomy rows yields several output rows), and report the number
of rows with no lineage as a printed count, not an error. -/
def run_taxonomy_join (hits : List JoinHit) (tax : List (String × String)) :
    List (JoinHit × Option String) × ℕ :=
  let canon := hits.map (fun h => { h with sseqid := canonSseqid h.sseqid })
  let merged := canon.flatMap (joinOne tax)
  (merged, merged.countP (fun p => p.2.isNone))

/-- C5: the documented canonicalization example.  The module's own
`_strip_accession` helper maps the GTDB-style subject id to
`GCF_000771715` exactly as documented, but `run_taxonomy_join` never
calls it: its canonicalization chain leaves the id unchanged, so the
join against a table keyed by `GCF_000771715` produces a null lineage
instead of the match the spec (and the helper's docstring) describe. -/
theorem taxonomy_join_accession_scenario :
    strip_accession "RS-GCF-000771715.1-NZ-ADEY01000022.1-2" =
      some "GCF_000771715" ∧
    canonSseqid "RS-GCF-000771715.1-NZ-ADEY01000022.1-2" =
      "RS-GCF-000771715.1-NZ-ADEY01000022.1-2" ∧
    run_taxonomy_join
        [{ sample_id := "S1",
           sseqid := "RS-GCF-000771715.1-NZ-ADEY01000022.1-2" }]
        [("GCF_000771715", "d__Bacteria; p__Proteobacteria")] =
      ([({ sample_id := "S1",
           sseqid := "RS-GCF-000771715.1-NZ-ADEY01000022.1-2" }, none)], 1) := by
  refine ⟨?_, ?_, ?_⟩
  · with_unfolding_all rfl
  · with_unfolding_all rfl
  · with_unfolding_all rfl

/-- C7 counterexample: with a taxonomy table holding two rows for one
accession, a single input hit produces two output rows, so "exactly one
row per input hit row" fails for duplicate-keyed reference tables. -/
theorem run_taxonomy_join_duplicate_keys :
    (run_taxonomy_join [{ sample_id := "S1", sseqid := "ACC1" }]
        [("ACC1", "lineage one"), ("ACC1", "lineage two")]).1.length = 2 ∧
    ([({ sample_id := "S1", sseqid := "ACC1" } : JoinHit)]).length = 1 := by
  constructor
  · with_unfolding_all rfl
  · rfl

/-- At most one taxonomy row matches a key when the accession column has
no duplicates. -/
theorem filter_key_length_le_one :
    ∀ (tax : List (String × String)) (k : String),
      (tax.map Prod.fst).Nodup →
      (tax.filter (fun t => t.1 = k)).length ≤ 1 := by
  intro tax k hnd
  induction tax with
  | nil => simp
  | cons t ts ih =>
    rw [List.map_cons, List.nodup_cons] at hnd
    by_cases ht : t.1 = k
    · have hnone : ts.filter (fun u => u.1 = k) = [] := by
        rw [List.filter_eq_nil_iff]
        intro u hu hk
        exact hnd.1 (ht ▸ (of_decide_eq_true hk) ▸
          List.mem_map_of_mem Prod.fst hu)
      simp [List.filter_cons, ht, hnone]
    · simp only [List.filter_cons, decide_eq_true_eq]
      rw [if_neg ht]
      exact ih hnd.2

/-- C7 (amended): when the reference taxonomy table has no duplicate
accessions, the join is a true left join: exactly one output row per
input hit row, a hit with no match keeps a `none` lineage and is not
dropped, and the number of unmatched rows is returned as a count, not an
error. -/
theorem run_taxonomy_join_left_join :
    ∀ (hits : List JoinHit) (tax : List (String × String)),
      (tax.map Prod.fst).Nodup →
      (run_taxonomy_join hits tax).1.length = hits.length ∧
      (∀ h ∈ hits, tax.filter (fun t => t.1 = canonSseqid h.sseqid) = [] →
        ({ h with sseqid := canonSseqid h.sseqid }, (none : Option String)) ∈
          (run_taxonomy_join hits tax).1) ∧
      (run_taxonomy_join hits tax).2 =
        (run_taxonomy_join hits tax).1.countP (fun p => p.2.isNone) := by
  intro hits tax hnd
  have hone : ∀ h : JoinHit, (joinOne tax h).length = 1 := by
    intro h
    unfold joinOne
    cases hf : tax.filter (fun t => t.1 = h.sseqid) with
    | nil => rfl
    | cons m ms =>
      have hlen := filter_key_length_le_one tax h.sseqid hnd
      rw [hf] at hlen
      simp only [List.length_cons] at hlen
      have hms : ms = [] := List.eq_nil_of_length_eq_zero (by omega)
      subst hms
      rfl
  refine ⟨?_, ?_, rfl⟩
  · unfold run_taxonomy_join
    simp only [List.length_flatMap]
    rw [show (List.length ∘ joinOne tax) = (fun _ : JoinHit => 1) from
      funext hone]
    simp [Function.comp_def]
  · intro h hh hempty
    unfold run_taxonomy_join
    refine List.mem_flatMap.mpr
      ⟨{ h with sseqid := canonSseqid h.sseqid },
        List.mem_map_of_mem _ hh, ?_⟩
    unfold joinOne
    rw [show ({ h with sseqid := canonSseqid h.sseqid } : JoinHit).sseqid =
      canonSseqid h.sseqid from rfl, hempty]
    exact List.mem_singleton.mpr rfl

/-- C7 witness: the amended left-join contract on a concrete table with
one matched and one unmatched hit. -/
theorem run_taxonomy_join_left_join_witness :
    (run_taxonomy_join
        [{ sample_id := "S1", sseqid := "ACC1" },
         { sample_id := "S2", sseqid := "ACC9" }]
        [("ACC1", "d__Bacteria")]).1.length = 2 ∧
    ({ sample_id := "S2", sseqid := canonSseqid "ACC9" },
        (none : Option String)) ∈
      (run_taxonomy_join
        [{ sample_id := "S1", sseqid := "ACC1" },
         { sample_id := "S2", sseqid := "ACC9" }]
        [("ACC1", "d__Bacteria")]).1 := by
  have h := run_taxonomy_join_left_join
    [{ sample_id := "S1", sseqid := "ACC1" },
     { sample_id := "S2", sseqid := "ACC9" }]
    [("ACC1", "d__Bacteria")] (by with_unfolding_all decide)
  exact ⟨by simpa using h.1,
    h.2.1 { sample_id := "S2", sseqid := "ACC9" }
      (by with_unfolding_all decide) (by with_unfolding_all decide)⟩

/-! ### Search Executor pre-spawn validation (`blast/run_blast.py`) -/

/-- Externally visible actions of `run_blast` once validation passes. -/
inductive BlastAction where
  | spawnAligner
  | writeOutput
deriving DecidableEq

/-- The validation prefix of `run_blast`: resolve the database key (fail
fast with the valid keys otherwise), check the query file exists, count
FASTA records, fall back to counting FASTQ records, and only then build
the command and spawn the external aligner.  The returned list is the
trace of external actions performed. -/
def run_blast (dbKnown queryIsFile : Bool) (nFasta nFastq : ℕ) :
    List BlastAction × Except String Unit :=
  if ¬dbKnown then
    ([], Except.error "unknown DB key; valid keys listed")
  else if ¬queryIsFile then
    ([], Except.error "FileNotFoundError")
  else
    let total := if nFasta = 0 then nFastq else nFasta
    if total = 0 then
      ([], Except.error "contains no FASTA/FASTQ records - nothing to BLAST")
    else
      ([BlastAction.spawnAligner, BlastAction.writeOutput], Except.ok ())

/-- C9: with zero FASTA and zero FASTQ records the Search Executor raises
`ValueError` before any external action: the aligner is never spawned and
no output file is produced; with the database key resolved and the query
file present, the error is exactly the no-records `ValueError`. -/
theorem run_blast_empty_query_never_spawns :
    (∀ dbKnown queryIsFile : Bool,
      (run_blast dbKnown queryIsFile 0 0).1 = [] ∧
      ∃ e, (run_blast dbKnown queryIsFile 0 0).2 = Except.error e) ∧
    (run_blast true true 0 0).2 =
      Except.error "contains no FASTA/FASTQ records - nothing to BLAST" := by
  constructor
  · intro dbKnown queryIsFile
    cases dbKnown <;> cases queryIsFile <;>
      exact ⟨rfl, _, rfl⟩
  · rfl

end MicroSeq
